import Mathlib

/-!
Verification of the siftrank repository's metrics/aggregation layer,
provider factory, round-robin selector, CLI validation and engine model.

Shallow embedding conventions:
* Go `int`/`int64` values are modelled as `ℤ`.
* Go `float64` arithmetic is idealised as exact rational arithmetic (`ℚ`);
  Go's float-to-int conversion (truncation toward zero) is `ratTrunc`.
* Go panics and runtime faults are modelled as `Option.none`.
* Wall-clock quantities (latency, timestamps) are symbolic parameters.
-/

/-- `eval.CallMetrics`: performance data for a single LLM API call
(src/pkg/siftrank/eval, metrics source). `Timestamp` is a symbolic clock value. -/
structure CallMetrics where
  ModelID : String
  LatencyMs : ℤ
  InputTokens : ℤ
  OutputTokens : ℤ
  PromptTokens : ℤ
  Success : Bool
  ErrorType : String
  Timestamp : ℤ
deriving Repr, DecidableEq, Inhabited

/-- `eval.ModelStats`: aggregated per-model statistics (src/unnamed/part_003).
`SuccessRate` is a Go float64, idealised as `ℚ`. -/
structure ModelStats where
  ModelID : String
  CallCount : ℤ
  SuccessRate : ℚ
  ErrorCount : ℤ
  AvgLatency : ℤ
  P50Latency : ℤ
  P95Latency : ℤ
  P99Latency : ℤ
  TotalTokens : ℤ
deriving Repr, DecidableEq, Inhabited

/-- Go's float64-to-int conversion: truncation toward zero. -/
def ratTrunc (q : ℚ) : ℤ := if 0 ≤ q then ⌊q⌋ else ⌈q⌉

/-- `eval.percentile` (src/unnamed/part_003 lines 115-147): p-th percentile of a
slice of int64 values by linear interpolation (R-7).  `none` models the Go
panic on an empty slice (and an out-of-range index fault, which Go would also
turn into a panic). -/
def percentile (values : List ℤ) (p : ℤ) : Option ℤ :=
  if values.length = 0 then none
  else
    let sorted := List.insertionSort (· ≤ ·) values
    if sorted.length = 1 then some sorted.headI
    else
      let rank : ℚ := (p : ℚ) / 100 * ((sorted.length : ℚ) - 1)
      let lower : ℤ := ratTrunc rank
      let upper : ℤ := lower + 1
      if upper ≥ (sorted.length : ℤ) then some (sorted.getLastD 0)
      else if lower < 0 then none
      else
        let fraction : ℚ := rank - (lower : ℚ)
        let lo : ℤ := sorted.getD lower.toNat 0
        let hi : ℤ := sorted.getD upper.toNat 0
        some (ratTrunc ((lo : ℚ) + fraction * ((hi : ℚ) - (lo : ℚ))))

/-- The loop body of `SessionAggregator.AggregateMetrics` picks the input-token
count: `PromptTokens` when `InputTokens == 0 && PromptTokens > 0`, else
`InputTokens` (src/unnamed/part_003 lines 63-67). -/
def effectiveInputTokens (m : CallMetrics) : ℤ :=
  if m.InputTokens = 0 ∧ 0 < m.PromptTokens then m.PromptTokens else m.InputTokens

/-- Accumulator of the `for _, m := range metrics` loop in `AggregateMetrics`. -/
structure AggState where
  successCount : ℤ
  errorCount : ℤ
  totalLatency : ℤ
  totalTokens : ℤ
  latencies : List ℤ
deriving Repr, DecidableEq

/-- One iteration of the aggregation loop (src/unnamed/part_003 lines 53-69). -/
def aggStep (s : AggState) (m : CallMetrics) : AggState :=
  { successCount := if m.Success then s.successCount + 1 else s.successCount
    errorCount := if m.Success then s.errorCount else s.errorCount + 1
    totalLatency := s.totalLatency + m.LatencyMs
    totalTokens := s.totalTokens + (effectiveInputTokens m + m.OutputTokens)
    latencies := s.latencies ++ [m.LatencyMs] }

/-- The zero `ModelStats{}` value returned for empty input. -/
def zeroModelStats : ModelStats := ⟨"", 0, 0, 0, 0, 0, 0, 0, 0⟩

/-- `SessionAggregator.AggregateMetrics` (src/unnamed/part_003 lines 36-85).
`none` models a panic escaping from `percentile`. -/
def aggregateMetrics (metrics : List CallMetrics) : Option ModelStats :=
  if metrics.length = 0 then some zeroModelStats
  else
    let modelID := metrics.headI.ModelID
    let callCount : ℤ := metrics.length
    let st := metrics.foldl aggStep ⟨0, 0, 0, 0, []⟩
    match percentile st.latencies 50, percentile st.latencies 95,
        percentile st.latencies 99 with
    | some p50, some p95, some p99 =>
        some { ModelID := modelID
               CallCount := callCount
               SuccessRate := (st.successCount : ℚ) / (callCount : ℚ)
               ErrorCount := st.errorCount
               AvgLatency := st.totalLatency.tdiv callCount
               P50Latency := p50
               P95Latency := p95
               P99Latency := p99
               TotalTokens := st.totalTokens }
    | _, _, _ => none

/-- Keys of the Go `grouped` map in `AggregateByModel`, in first-encounter
order (the map's iteration order is immaterial: results are sorted at the
end). -/
def groupKeys (metrics : List CallMetrics) : List String :=
  metrics.foldl (fun ks m => if m.ModelID ∈ ks then ks else ks ++ [m.ModelID]) []

/-- Option-valued map over a list, propagating a modelled panic. -/
def optionMapList (f : α → Option β) : List α → Option (List β)
  | [] => some []
  | a :: as =>
    match f a, optionMapList f as with
    | some b, some bs => some (b :: bs)
    | _, _ => none

/-- `SessionAggregator.AggregateByModel` (src/unnamed/part_003 lines 88-110):
group by `ModelID`, aggregate each group, overwrite the `ModelID` field, sort
results by `ModelID`. -/
def aggregateByModel (metrics : List CallMetrics) : Option (List ModelStats) :=
  (optionMapList
      (fun id =>
        (aggregateMetrics (metrics.filter (fun m => m.ModelID = id))).map
          (fun s => { s with ModelID := id }))
      (groupKeys metrics)).map
    (fun results =>
      List.insertionSort (fun a b : ModelStats => a.ModelID ≤ b.ModelID) results)

/-- Spec-side formula (§4.7 of the spec): percentile by linear interpolation
over the ascending-sorted samples at index `p/100 × (n−1)`; a single sample
yields itself.  Truncation to int64 as in the program. -/
def specLinearPercentile (sorted : List ℤ) (p : ℤ) : ℤ :=
  if sorted.length = 1 then sorted.headI
  else
    let idx : ℚ := (p : ℚ) / 100 * ((sorted.length : ℚ) - 1)
    let i : ℕ := (⌊idx⌋).toNat
    let frac : ℚ := idx - (⌊idx⌋ : ℚ)
    ratTrunc ((sorted.getD i 0 : ℚ) +
      frac * ((sorted.getD (i + 1) 0 : ℚ) - (sorted.getD i 0 : ℚ)))

/-- `siftrank.Usage` (src/unnamed/part_002 lines 938-942). -/
structure Usage where
  InputTokens : ℤ
  OutputTokens : ℤ
  ReasoningTokens : ℤ
deriving Repr, DecidableEq, Inhabited

/-- `Usage.TotalTokens` (src/unnamed/part_002 lines 945-947). -/
def Usage.TotalTokens (u : Usage) : ℤ :=
  u.InputTokens + u.OutputTokens + u.ReasoningTokens

/-- `Usage.Add` (src/unnamed/part_002 lines 950-954): componentwise addition
(the Go method mutates the receiver; we return the updated value). -/
def Usage.Add (u other : Usage) : Usage :=
  { InputTokens := u.InputTokens + other.InputTokens
    OutputTokens := u.OutputTokens + other.OutputTokens
    ReasoningTokens := u.ReasoningTokens + other.ReasoningTokens }

/-- The zero `Usage{}` value. -/
def Usage.zero : Usage := ⟨0, 0, 0⟩

/-- `siftrank.roundRobinSelector` (src/unnamed/part_002 lines 189-194).
`providersKeys` stands for the key set of the Go `providers` map; `index` is
the rotation counter. -/
structure RoundRobinSelector where
  providersKeys : List String
  sequence : List String
  index : ℕ
deriving Repr, DecidableEq

/-- `roundRobinSelector.SelectProvider` (src/unnamed/part_002 lines 196-212):
returns the selected model id (standing for the provider and its id) and the
updated selector state.  The mutex is irrelevant in this sequential model. -/
def selectProvider (rr : RoundRobinSelector) :
    Except String String × RoundRobinSelector :=
  if rr.sequence.length = 0 then
    (.error "no models configured for comparison", rr)
  else
    let modelID := rr.sequence.getD (rr.index % rr.sequence.length) ""
    let rr' := { rr with index := rr.index + 1 }
    if modelID ∈ rr.providersKeys then (.ok modelID, rr')
    else (.error ("provider not found for model: " ++ modelID), rr')

/-- Selector state after `k` successive `SelectProvider` calls. -/
def selectorIterate (rr : RoundRobinSelector) : ℕ → RoundRobinSelector
  | 0 => rr
  | k + 1 => (selectProvider (selectorIterate rr k)).2

instance : DecidableEq (Except String String) := fun a b =>
  match a, b with
  | .ok x, .ok y => decidable_of_iff (x = y) (by simp)
  | .error x, .error y => decidable_of_iff (x = y) (by simp)
  | .ok _, .error _ => isFalse (by simp)
  | .error _, .ok _ => isFalse (by simp)

/-- How many of the first `n` calls (calls 1..n) returned model `id`. -/
def selectionCount (rr : RoundRobinSelector) (id : String) (n : ℕ) : ℕ :=
  ((Finset.range n).filter
    (fun i => (selectProvider (selectorIterate rr i)).1 = Except.ok id)).card

/-- `MetricsCollector.RecordCall` (src/pkg/siftrank/eval, collector source):
appends one entry to the stored slice. -/
def recordCall (collected : List CallMetrics) (m : CallMetrics) : List CallMetrics :=
  collected ++ [m]

/-- The `CallMetrics` record built by `EvalProvider.Complete`
(src/pkg/siftrank/eval/provider.go lines 47-96), as a function of the
selection outcome `sel`, the underlying call outcome `call`, the options'
token counts `opts` (`none` for a nil options value), the start timestamp and
the measured latency. -/
def evalMetric (sel : Except String String) (call : Except String String)
    (opts : Option (ℤ × ℤ)) (startTime latencyMs : ℤ) : CallMetrics :=
  match sel with
  | .error e =>
      { ModelID := "unknown", LatencyMs := 0, InputTokens := 0
        OutputTokens := 0, PromptTokens := 0, Success := false
        ErrorType := e, Timestamp := startTime }
  | .ok modelID =>
      let base : CallMetrics :=
        { ModelID := modelID, LatencyMs := latencyMs, InputTokens := 0
          OutputTokens := 0, PromptTokens := 0
          Success := (match call with | .ok _ => true | .error _ => false)
          ErrorType := "", Timestamp := startTime }
      let withTokens :=
        match opts with
        | some (inTok, outTok) =>
            { base with InputTokens := inTok, OutputTokens := outTok
                        PromptTokens := inTok }
        | none => base
      match call with
      | .ok _ => withTokens
      | .error e => { withTokens with ErrorType := e }

/-- `EvalProvider.Complete` (src/pkg/siftrank/eval/provider.go lines 47-96):
selects a provider, calls it, records exactly one metrics entry, and returns
the call outcome (or the selection error). -/
def evalComplete (sel : Except String String) (call : Except String String)
    (opts : Option (ℤ × ℤ)) (startTime latencyMs : ℤ)
    (collected : List CallMetrics) :
    Except String String × List CallMetrics :=
  match sel with
  | .error e => (.error e, recordCall collected (evalMetric sel call opts startTime latencyMs))
  | .ok _ => (call, recordCall collected (evalMetric sel call opts startTime latencyMs))

/-- `siftrank.minDuration` as used by `AnthropicProvider.Complete`
(durations in milliseconds). -/
def minDuration (a b : ℤ) : ℤ := if a ≤ b then a else b

/-- One iteration's observable outcome inside the retry loop of
`AnthropicProvider.Complete` (src/pkg/siftrank/eval/metrics_test.go fused
file, provider source lines 378-504):
* `ctxDone e` — `ctx.Err() != nil` at the top of the loop;
* `ok content` — the API call succeeded;
* `errCtx e` — the call failed and `ctx.Err() != nil` afterwards;
* `errTimeout` — the call failed with `context.DeadlineExceeded`;
* `errStatus code retryAfter emsg` — the call failed with the captured HTTP
  status `code`, an optional parsed retry-after duration and error text;
* `errOther` — any other failure. -/
inductive AnthropicAttempt where
  | ctxDone (e : String)
  | ok (content : String)
  | errCtx (e : String)
  | errTimeout
  | errStatus (code : ℤ) (retryAfter : Option ℤ) (emsg : String)
  | errOther
deriving Repr, DecidableEq

/-- Result of `AnthropicProvider.Complete`. `exhausted` marks a finite attempt
trace that ran out while the loop would have retried again. -/
inductive AnthropicResult where
  | success (content : String)
  | ctxError (e : String)
  | unrecoverable (msg : String)
  | exhausted
deriving Repr, DecidableEq

/-- The retry loop of `AnthropicProvider.Complete`, folded over a finite trace
of attempt outcomes.  `backoff` is the current backoff in milliseconds
(initially 1000, doubled and capped at 30000 exactly where the source sleeps
and doubles; a 429 with a parsed retry-after sleeps that long and leaves the
backoff unchanged). -/
def anthropicComplete (backoff : ℤ) : List AnthropicAttempt → AnthropicResult
  | [] => .exhausted
  | a :: rest =>
    match a with
    | .ctxDone e => .ctxError e
    | .ok content => .success content
    | .errCtx e => .ctxError e
    | .errTimeout => anthropicComplete (minDuration (backoff * 2) 30000) rest
    | .errStatus code retryAfter emsg =>
        if code = 429 then
          match retryAfter with
          | some ra =>
              if 0 < ra then anthropicComplete backoff rest
              else anthropicComplete (minDuration (backoff * 2) 30000) rest
          | none => anthropicComplete (minDuration (backoff * 2) 30000) rest
        else if 500 ≤ code ∧ code < 600 then
          anthropicComplete (minDuration (backoff * 2) 30000) rest
        else if 400 ≤ code ∧ code < 500 then
          .unrecoverable ("unrecoverable error (status " ++ toString code ++ "): " ++ emsg)
        else anthropicComplete (minDuration (backoff * 2) 30000) rest
    | .errOther => anthropicComplete (minDuration (backoff * 2) 30000) rest

/-- Observable side effects of the CLI `run` function
(src/cmd/siftrank/main.go lines 302-443), in program order. -/
inductive RunEffect where
  | openLogFile
  | readPromptFile
  | newRanker
  | readInputFile
  | llmCall
deriving Repr, DecidableEq

/-- Environment of `run`: the flag-dependent inputs and the outcomes of the
external steps it invokes (file system, ranker construction, ranking). -/
structure RunEnv where
  logFile : Option String
  openLog : Except String Unit
  promptAt : Option String
  readPrompt : Except String String
  makeRanker : Except String Unit
  validateInput : Except String Bool
  rank : Except String String

/-- `run` from ranker construction onwards (main.go lines 382-443):
`NewRanker`, `validateInputPath`, then ranking (which reads the input file
and makes the LLM calls). -/
def runRanker (env : RunEnv) (fx : List RunEffect) :
    Except String String × List RunEffect :=
  match env.makeRanker with
  | .error e => (.error ("failed to create ranker: " ++ e), fx ++ [.newRanker])
  | .ok _ =>
    match env.validateInput with
    | .error e => (.error ("invalid input path: " ++ e), fx ++ [.newRanker])
    | .ok _ =>
      match env.rank with
      | .error e =>
          (.error ("failed to rank: " ++ e),
            fx ++ [.newRanker, .readInputFile, .llmCall])
      | .ok out =>
          (.ok out, fx ++ [.newRanker, .readInputFile, .llmCall])

/-- `run` from the prompt-loading step onwards (main.go lines 337-351):
an initial prompt of the form `@path` is read from disk first. -/
def runAfterRatioCheck (env : RunEnv) (fx : List RunEffect) :
    Except String String × List RunEffect :=
  match env.promptAt, env.readPrompt with
  | some _, .error e =>
      (.error ("could not read initial prompt file: " ++ e),
        fx ++ [.readPromptFile])
  | some _, .ok _ => runRanker env (fx ++ [.readPromptFile])
  | none, _ => runRanker env fx

/-- The CLI `run` function (main.go lines 302-443): logging setup (which may
open a log file), then the refinement-ratio validation
(`refinementRatio < 0 || refinementRatio >= 1`, lines 332-335), then the
rest of the pipeline.  `r` is the `--ratio` flag value. -/
def runModel (env : RunEnv) (r : ℚ) : Except String String × List RunEffect :=
  match env.logFile with
  | some _ =>
    match env.openLog with
    | .error e => (.error ("invalid log file path: " ++ e), [.openLogFile])
    | .ok _ =>
        if r < 0 ∨ 1 ≤ r then
          (.error "refinement ratio must be >= 0 and < 1", [.openLogFile])
        else runAfterRatioCheck env [.openLogFile]
  | none =>
      if r < 0 ∨ 1 ≤ r then
        (.error "refinement ratio must be >= 0 and < 1", [])
      else runAfterRatioCheck env []

/-- Authentication strategy constructed by the factories
(src/pkg/siftrank/eval/metrics_test.go fused file, auth source). -/
inductive AuthSpec where
  | bearer (token : String)
  | header (name value : String)
  | noAuth
deriving Repr, DecidableEq

/-- The observable outcome of a provider factory: which concrete constructor
is invoked and with which configuration.  (`NewOpenAIProvider` /
`NewAnthropicProvider` themselves live behind this descriptor; both factory
versions invoke them with identical arguments, so the equivalence claim does
not depend on their internals.) -/
inductive ProviderOutcome where
  | openaiProvider (auth : AuthSpec) (model baseURL encoding effort : String)
  | anthropicProvider (auth : AuthSpec) (model baseURL encoding : String)
deriving Repr, DecidableEq

/-- `siftrank.DefaultEncoding`: defined outside src/; both factory versions
use the same constant, so the equivalence claim is insensitive to its value
(the CLI README documents `o200k_base`). -/
def DefaultEncoding : String := "o200k_base"

/-- `ProviderConfig` fields common to both factory versions (the new version
adds `CompareModels`, which `NewProvider` never reads). `Typ` is the Go
`Type` field. -/
structure ProviderConfig where
  Typ : String
  APIKey : String
  Model : String
  BaseURL : String
  Encoding : String
  Effort : String
deriving Repr, DecidableEq

/-- `newOpenAICompatibleProvider`, textually identical in factory.go lines
71-92 and src/unnamed/part_002 lines 79-100. -/
def newOpenAICompatibleProvider (cfg : ProviderConfig) :
    Except String ProviderOutcome :=
  if cfg.APIKey = "" then .error (cfg.Typ ++ " provider requires an API key")
  else
    .ok (.openaiProvider (.bearer cfg.APIKey) cfg.Model cfg.BaseURL
      (if cfg.Encoding = "" then DefaultEncoding else cfg.Encoding) cfg.Effort)

/-- `newOllamaProvider`, textually identical in factory.go lines 95-124 and
src/unnamed/part_002 lines 125-154. -/
def newOllamaProvider (cfg : ProviderConfig) : Except String ProviderOutcome :=
  let auth := if cfg.APIKey ≠ "" then AuthSpec.bearer cfg.APIKey else AuthSpec.noAuth
  if cfg.BaseURL = "" then .error "ollama provider requires a base URL"
  else
    .ok (.openaiProvider auth cfg.Model cfg.BaseURL
      (if cfg.Encoding = "" then DefaultEncoding else cfg.Encoding) cfg.Effort)

/-- `newAnthropicProvider` (src/unnamed/part_002 lines 103-122, new factory
only). -/
def newAnthropicProvider (cfg : ProviderConfig) : Except String ProviderOutcome :=
  if cfg.APIKey = "" then .error "anthropic provider requires an API key"
  else
    .ok (.anthropicProvider (.header "x-api-key" cfg.APIKey) cfg.Model cfg.BaseURL
      (if cfg.Encoding = "" then DefaultEncoding else cfg.Encoding))

/-- Old `NewProvider` (src/pkg/siftrank/factory.go lines 40-68). -/
def newProviderOld (cfg : ProviderConfig) : Except String ProviderOutcome :=
  if cfg.Typ = "" then .error "provider type is required"
  else if cfg.Model = "" then .error "model is required"
  else if cfg.Typ = "openai" ∨ cfg.Typ = "openrouter" then
    newOpenAICompatibleProvider cfg
  else if cfg.Typ = "anthropic" then .error "anthropic provider not yet implemented"
  else if cfg.Typ = "google" then .error "google provider not yet implemented"
  else if cfg.Typ = "ollama" then newOllamaProvider cfg
  else .error ("unknown provider type: " ++ cfg.Typ)

/-- New `NewProvider` (src/unnamed/part_002 lines 48-76). -/
def newProviderNew (cfg : ProviderConfig) : Except String ProviderOutcome :=
  if cfg.Typ = "" then .error "provider type is required"
  else if cfg.Model = "" then .error "model is required"
  else if cfg.Typ = "openai" ∨ cfg.Typ = "openrouter" then
    newOpenAICompatibleProvider cfg
  else if cfg.Typ = "anthropic" then newAnthropicProvider cfg
  else if cfg.Typ = "google" then .error "google provider not yet implemented"
  else if cfg.Typ = "ollama" then newOllamaProvider cfg
  else .error ("unknown provider type: " ++ cfg.Typ)

/-- A tiny heap of Go slices, to make `MetricsCollector`'s copy-on-read
behaviour statable: each allocated slice lives at a numeric reference. -/
structure MetricsHeap where
  slots : ℕ → List CallMetrics
  next : ℕ

/-- Write the slice at reference `r`. -/
def heapWrite (h : MetricsHeap) (r : ℕ) (v : List CallMetrics) : MetricsHeap :=
  ⟨fun i => if i = r then v else h.slots i, h.next⟩

/-- Allocate a fresh slice holding `v`; returns the new heap and the fresh
reference. -/
def heapAlloc (h : MetricsHeap) (v : List CallMetrics) : MetricsHeap × ℕ :=
  (⟨fun i => if i = h.next then v else h.slots i, h.next + 1⟩, h.next)

/-- The collector holds a reference to its backing slice
(src/pkg/siftrank/eval, collector source). -/
structure SliceCollector where
  ref : ℕ

/-- `NewMetricsCollector`: allocates an empty backing slice. -/
def newMetricsCollector (h : MetricsHeap) : MetricsHeap × SliceCollector :=
  let a := heapAlloc h []
  (a.1, ⟨a.2⟩)

/-- `MetricsCollector.RecordCall`: appends to the backing slice in place. -/
def collectorRecordCall (h : MetricsHeap) (c : SliceCollector) (m : CallMetrics) :
    MetricsHeap :=
  heapWrite h c.ref (h.slots c.ref ++ [m])

/-- `MetricsCollector.GetMetrics`: `make` + `copy` — a fresh slice holding a
copy of the stored entries. -/
def collectorGetMetrics (h : MetricsHeap) (c : SliceCollector) : MetricsHeap × ℕ :=
  heapAlloc h (h.slots c.ref)

/-- `MetricsCollector.GetMetricsByModel`: a fresh slice collecting, in stored
order, the entries whose `ModelID` matches (the Go loop with a conditional
append). -/
def collectorGetMetricsByModel (h : MetricsHeap) (c : SliceCollector)
    (id : String) : MetricsHeap × ℕ :=
  heapAlloc h ((h.slots c.ref).filter (fun m => m.ModelID = id))

/-- `MetricsCollector.Reset`: replaces the backing slice with an empty one. -/
def collectorReset (h : MetricsHeap) (c : SliceCollector) : MetricsHeap :=
  heapWrite h c.ref []

/-- Modelled from the spec: `Document` (§3) — the ranking engine's unit of
input; the engine implementation (Ranker / Trial Scheduler) is not among the
provided sources. -/
structure Document where
  key : String
  value : String
deriving Repr, DecidableEq

/-- Modelled from the spec: `RankedDocument` (§3), the engine's output row. -/
structure RankedDoc where
  key : String
  value : String
  score : ℚ
  exposure : ℕ
  rank : ℕ
deriving Repr, DecidableEq

/-- Modelled from the spec: a deterministic PRNG step (linear congruential)
standing for the engine's trial-seeded pseudo-random source (§4.1). -/
def lcgNext (s : ℕ) : ℕ := (s * 1664525 + 1013904223) % 4294967296

/-- Remove and return the element at position `n`. -/
def pickOut : List α → ℕ → Option (α × List α)
  | [], _ => none
  | a :: as, 0 => some (a, as)
  | a :: as, n + 1 => (pickOut as n).map (fun p => (p.1, a :: p.2))

/-- Modelled from the spec: a seeded Fisher-Yates shuffle — the
"trial-seeded pseudo-random permutation" of §4.1.  Deterministic in `seed`. -/
def seededShuffleAux (fuel : ℕ) (s : ℕ) (l : List α) : List α :=
  match fuel with
  | 0 => l
  | fuel + 1 =>
    match l with
    | [] => []
    | _ =>
      match pickOut l (s % l.length) with
      | some (a, rest) => a :: seededShuffleAux fuel (lcgNext s) rest
      | none => l

/-- Seeded shuffle of a whole list. -/
def seededShuffle (seed : ℕ) (l : List α) : List α :=
  seededShuffleAux l.length seed l

/-- Modelled from the spec: the ScoreLedger (§3, §4.3) — per key, the
cumulative rank sum and the exposure count. -/
def Ledger := String → ℕ × ℕ

/-- The all-zero ledger the scheduler starts from (§4.6 step 2). -/
def zeroLedger : Ledger := fun _ => (0, 0)

/-- Add rank `i` (1-based) for key `k` and bump its exposure (§4.3). -/
def bump (led : Ledger) (k : String) (i : ℕ) : Ledger :=
  fun key => if key = k then ((led k).1 + i, (led k).2 + 1) else led key

/-- Modelled from the spec: accept one Ranking (§4.3) — for the i-th key
(best first), `cumulative_rank_sum += i` and `exposure_count += 1`. -/
def applyRanking (led : Ledger) (r : List String) : Ledger :=
  (r.enum).foldl (fun led p => bump led p.2 (p.1 + 1)) led

/-- Apply a collection of accepted rankings in completion order. -/
def applyAll (led : Ledger) (rs : List (List String)) : Ledger :=
  rs.foldl applyRanking led

/-- Modelled from the spec: one trial's planned batches and their dry-run
stub rankings (§4.1, §6 `dry_run`): shuffle the documents with the trial
seed, distribute round-robin into `K = ceil(L/B)` bins, and produce each
batch's ranking by shuffling the batch order (the stub provider). -/
def planRankings (seed : ℕ) (docs : List Document) (B : ℕ) : List (List String) :=
  let shuffled := seededShuffle seed docs
  let K := (docs.length + B - 1) / B
  let batches := (List.range K).map
    (fun i => ((shuffled.enum.filter (fun p => p.1 % K = i)).map (fun p => p.2)))
  batches.enum.map
    (fun p => (seededShuffle (lcgNext (seed + p.1)) p.2).map (fun d => d.key))

/-- `score := cumulative_rank_sum / max(1, exposure_count)` (§3). -/
def ledgerScore (led : Ledger) (k : String) : ℚ :=
  ((led k).1 : ℚ) / ((max 1 (led k).2 : ℕ) : ℚ)

/-- Modelled from the spec: the global ordering (§4.3) — score ascending,
ties broken by exposure descending then key ascending. -/
def docOrder (led : Ledger) (a b : Document) : Prop :=
  ledgerScore led a.key < ledgerScore led b.key ∨
    (ledgerScore led a.key = ledgerScore led b.key ∧
      ((led b.key).2 < (led a.key).2 ∨
        ((led a.key).2 = (led b.key).2 ∧ a.key ≤ b.key)))

instance (led : Ledger) : DecidableRel (docOrder led) := fun a b => by
  unfold docOrder
  infer_instance

/-- Modelled from the spec: the engine run for `max_trials = 1`, convergence
disabled and `refinement_ratio = 0` (§4.6 steps 2-4, 6, 8) with the dry-run
stub provider: apply the trial's rankings to the ledger in completion order
`order`, sort by the global ordering, and assign ranks 1..n.  The
`order` argument is the only scheduling-dependent input: batches may resolve
in any order (§5). -/
def engineRun (docs : List Document) (order : List (List String)) : List RankedDoc :=
  let led := applyAll zeroLedger order
  let sorted := List.insertionSort (docOrder led) docs
  sorted.enum.map
    (fun p => ⟨p.2.key, p.2.value, ledgerScore led p.2.key, (led p.2.key).2, p.1 + 1⟩)

section AggregatorLemmas

/-- Characterisation of the aggregation loop as sums/counts over the input. -/
theorem foldl_aggStep_eq (l : List CallMetrics) (init : AggState) :
    l.foldl aggStep init =
      { successCount := init.successCount + (l.countP (·.Success) : ℤ)
        errorCount := init.errorCount + (l.countP (fun m => !m.Success) : ℤ)
        totalLatency := init.totalLatency + (l.map (·.LatencyMs)).sum
        totalTokens := init.totalTokens +
          (l.map (fun m => effectiveInputTokens m + m.OutputTokens)).sum
        latencies := init.latencies ++ l.map (·.LatencyMs) } := by
  induction l generalizing init with
  | nil => simp
  | cons m t ih =>
    simp only [List.foldl_cons, ih, aggStep, List.countP_cons, List.map_cons,
      List.sum_cons]
    cases hm : m.Success <;>
      simp [hm, AggState.mk.injEq, List.append_assoc] <;>
      omega

theorem ratTrunc_eq_floor {q : ℚ} (h : 0 ≤ q) : ratTrunc q = ⌊q⌋ := by
  simp [ratTrunc, h]

end AggregatorLemmas

/-- For `0 ≤ p < 100` and a non-empty input, `percentile` computes exactly the
spec's linear-interpolation formula over the ascending-sorted samples. -/
theorem percentile_eq_spec (values : List ℤ) (p : ℤ)
    (hne : values ≠ []) (hp0 : 0 ≤ p) (hp1 : p < 100) :
    percentile values p =
      some (specLinearPercentile (List.insertionSort (· ≤ ·) values) p) := by
  have hlen0 : ¬ (values.length = 0) := by
    simpa using hne
  have hsl : (List.insertionSort (· ≤ ·) values).length = values.length :=
    (List.perm_insertionSort _ values).length_eq
  by_cases h1 : (List.insertionSort (· ≤ ·) values).length = 1
  · simp [percentile, specLinearPercentile, hlen0, h1]
  · have hge1 : 1 ≤ values.length := Nat.one_le_iff_ne_zero.mpr hlen0
    have h2 : 2 ≤ values.length := by omega
    have hq2 : (2:ℚ) ≤ (values.length : ℚ) := by exact_mod_cast h2
    have hrank_nonneg : 0 ≤ (p : ℚ) / 100 * ((values.length : ℚ) - 1) := by
      apply mul_nonneg
      · positivity
      · linarith
    have htr :
        ratTrunc ((p : ℚ) / 100 * ((values.length : ℚ) - 1)) =
          ⌊(p : ℚ) / 100 * ((values.length : ℚ) - 1)⌋ :=
      ratTrunc_eq_floor hrank_nonneg
    have hfl0 : 0 ≤ ⌊(p : ℚ) / 100 * ((values.length : ℚ) - 1)⌋ :=
      Int.floor_nonneg.mpr hrank_nonneg
    have hrank_lt :
        (p : ℚ) / 100 * ((values.length : ℚ) - 1) < (values.length : ℚ) - 1 := by
      have hdiv : (p : ℚ) / 100 < 1 := by
        rw [div_lt_one (by norm_num)]
        exact_mod_cast hp1
      have hpos : (0:ℚ) < (values.length : ℚ) - 1 := by linarith
      exact mul_lt_of_lt_one_left hpos hdiv
    have hfl_lt :
        ⌊(p : ℚ) / 100 * ((values.length : ℚ) - 1)⌋ < (values.length : ℤ) - 1 := by
      rw [Int.floor_lt]
      push_cast
      linarith
    have hup : ¬ ((values.length : ℤ) ≤
        ⌊(p : ℚ) / 100 * ((values.length : ℚ) - 1)⌋ + 1) := by omega
    have hlow : ¬ (⌊(p : ℚ) / 100 * ((values.length : ℚ) - 1)⌋ < 0) := by omega
    have hsucc :
        (⌊(p : ℚ) / 100 * ((values.length : ℚ) - 1)⌋ + 1).toNat =
          (⌊(p : ℚ) / 100 * ((values.length : ℚ) - 1)⌋).toNat + 1 := by omega
    have hv1 : ¬ (values.length = 1) := by omega
    simp [percentile, specLinearPercentile, hlen0, h1, hv1, htr, hup, hlow, hsucc,
      Int.self_sub_floor, hsl]

/-- Full characterisation of `AggregateMetrics` on non-empty input. -/
theorem aggregateMetrics_characterization (metrics : List CallMetrics)
    (h : metrics ≠ []) :
    aggregateMetrics metrics = some
      { ModelID := metrics.headI.ModelID
        CallCount := (metrics.length : ℤ)
        SuccessRate := (metrics.countP (·.Success) : ℚ) / (metrics.length : ℚ)
        ErrorCount := (metrics.countP (fun m => !m.Success) : ℤ)
        AvgLatency :=
          Int.tdiv ((metrics.map (fun m => m.LatencyMs)).sum) (metrics.length : ℤ)
        P50Latency :=
          specLinearPercentile (List.insertionSort (· ≤ ·) (metrics.map (·.LatencyMs))) 50
        P95Latency :=
          specLinearPercentile (List.insertionSort (· ≤ ·) (metrics.map (·.LatencyMs))) 95
        P99Latency :=
          specLinearPercentile (List.insertionSort (· ≤ ·) (metrics.map (·.LatencyMs))) 99
        TotalTokens :=
          (metrics.map (fun m => effectiveInputTokens m + m.OutputTokens)).sum } := by
  have hlen0 : ¬ (metrics.length = 0) := by simpa using h
  have hmapne : metrics.map (·.LatencyMs) ≠ [] := by simpa using h
  have h50 := percentile_eq_spec (metrics.map (·.LatencyMs)) 50 hmapne
    (by norm_num) (by norm_num)
  have h95 := percentile_eq_spec (metrics.map (·.LatencyMs)) 95 hmapne
    (by norm_num) (by norm_num)
  have h99 := percentile_eq_spec (metrics.map (·.LatencyMs)) 99 hmapne
    (by norm_num) (by norm_num)
  simp [aggregateMetrics, hlen0, foldl_aggStep_eq, h50, h95, h99]

/-- `aggregateMetrics` never hits the `percentile` panic. -/
theorem aggregateMetrics_isSome (metrics : List CallMetrics) :
    (aggregateMetrics metrics).isSome := by
  by_cases h : metrics = []
  · simp [aggregateMetrics, h]
  · rw [aggregateMetrics_characterization metrics h]
    rfl

theorem optionMapList_isSome {α β : Type} (f : α → Option β) (l : List α)
    (h : ∀ a ∈ l, (f a).isSome) : (optionMapList f l).isSome := by
  induction l with
  | nil => rfl
  | cons a as ih =>
    have ha := h a (by simp)
    have has : (optionMapList f as).isSome := ih (fun x hx => h x (by simp [hx]))
    simp only [optionMapList]
    cases hfa : f a with
    | none => rw [hfa] at ha; simp at ha
    | some b =>
      cases hrest : optionMapList f as with
      | none => rw [hrest] at has; simp at has
      | some bs => rfl

/-- C9: `AggregateMetrics` and `AggregateByModel` terminate without panicking
on every input (the empty-slice panic branch inside `percentile` is
unreachable from them): `none` models a panic, and both functions always
return `some`. -/
theorem claim_C9_aggregation_no_panic (metrics : List CallMetrics) :
    (aggregateMetrics metrics).isSome ∧ (aggregateByModel metrics).isSome := by
  refine ⟨aggregateMetrics_isSome metrics, ?_⟩
  have h : (optionMapList
      (fun id =>
        (aggregateMetrics (metrics.filter (fun m => m.ModelID = id))).map
          (fun s => { s with ModelID := id }))
      (groupKeys metrics)).isSome := by
    apply optionMapList_isSome
    intro id _
    have := aggregateMetrics_isSome (metrics.filter (fun m => m.ModelID = id))
    cases hx : aggregateMetrics (metrics.filter (fun m => m.ModelID = id)) with
    | none => rw [hx] at this; simp at this
    | some s => simp [hx]
  rw [aggregateByModel]
  cases hx : optionMapList
      (fun id =>
        (aggregateMetrics (metrics.filter (fun m => m.ModelID = id))).map
          (fun s => { s with ModelID := id }))
      (groupKeys metrics) with
  | none => rw [hx] at h; simp at h
  | some rs => rfl

/-- C6: `Usage.TotalTokens` is the sum of the three token counts, `Usage.Add`
is componentwise addition, hence `TotalTokens` is additive, and adding the
zero `Usage` changes nothing. -/
theorem claim_C6_usage_total_tokens_hom (u v : Usage) :
    (u.Add v).TotalTokens = u.TotalTokens + v.TotalTokens ∧
    (u.Add v).InputTokens = u.InputTokens + v.InputTokens ∧
    (u.Add v).OutputTokens = u.OutputTokens + v.OutputTokens ∧
    (u.Add v).ReasoningTokens = u.ReasoningTokens + v.ReasoningTokens ∧
    u.TotalTokens = u.InputTokens + u.OutputTokens + u.ReasoningTokens ∧
    u.Add Usage.zero = u := by
  refine ⟨?_, rfl, rfl, rfl, rfl, ?_⟩
  · simp [Usage.Add, Usage.TotalTokens]
    ring
  · cases u
    simp [Usage.Add, Usage.zero]

/-- C1: for every non-empty list of call metrics for a single model,
`AggregateMetrics` returns `ModelStats` in which: average latency is the
integer mean (Go integer division) of the latency samples; P50/P95/P99 are
computed over the ascending-sorted samples by linear interpolation at
percentile index `p/100 × (n−1)` (a single sample yields itself); total
tokens sums input plus output tokens per call, with `PromptTokens` standing
in when `InputTokens` is 0 and `PromptTokens > 0`; and success rate is the
number of successes divided by the call count. -/
theorem claim_C1_aggregate_metrics (metrics : List CallMetrics)
    (h : metrics ≠ []) :
    aggregateMetrics metrics = some
      { ModelID := metrics.headI.ModelID
        CallCount := (metrics.length : ℤ)
        SuccessRate := (metrics.countP (·.Success) : ℚ) / (metrics.length : ℚ)
        ErrorCount := (metrics.countP (fun m => !m.Success) : ℤ)
        AvgLatency :=
          Int.tdiv ((metrics.map (fun m => m.LatencyMs)).sum) (metrics.length : ℤ)
        P50Latency :=
          specLinearPercentile (List.insertionSort (· ≤ ·) (metrics.map (·.LatencyMs))) 50
        P95Latency :=
          specLinearPercentile (List.insertionSort (· ≤ ·) (metrics.map (·.LatencyMs))) 95
        P99Latency :=
          specLinearPercentile (List.insertionSort (· ≤ ·) (metrics.map (·.LatencyMs))) 99
        TotalTokens :=
          (metrics.map (fun m => effectiveInputTokens m + m.OutputTokens)).sum } :=
  aggregateMetrics_characterization metrics h

/-- A successful call: latency 100 ms, 10 input / 5 output tokens. -/
def c1CallA : CallMetrics := ⟨"m", 100, 10, 5, 0, true, "", 0⟩

/-- A failed call: latency 200 ms, `InputTokens` 0 with `PromptTokens` 30. -/
def c1CallB : CallMetrics := ⟨"m", 200, 0, 7, 30, false, "boom", 1⟩

/-- Witness for C1 at a concrete two-call history. -/
theorem claim_C1_witness :
    ([c1CallA, c1CallB] : List CallMetrics) ≠ [] ∧
    aggregateMetrics [c1CallA, c1CallB] = some
      { ModelID := "m", CallCount := 2, SuccessRate := 1/2, ErrorCount := 1
        AvgLatency := 150, P50Latency := 150, P95Latency := 195
        P99Latency := 199, TotalTokens := 52 } := by
  refine ⟨by simp, ?_⟩
  rw [claim_C1_aggregate_metrics [c1CallA, c1CallB] (by simp)]
  norm_num [c1CallA, c1CallB, effectiveInputTokens, specLinearPercentile,
    ratTrunc, List.insertionSort, List.orderedInsert, List.countP_cons,
    Int.tdiv]

section SelectorLemmas

theorem selectorIterate_state (keys seq : List String)
    (hne : seq.length ≠ 0) (k : ℕ) :
    selectorIterate ⟨keys, seq, 0⟩ k = ⟨keys, seq, k⟩ := by
  induction k with
  | zero => rfl
  | succ k ih =>
    show (selectProvider (selectorIterate ⟨keys, seq, 0⟩ k)).2 = _
    rw [ih]
    dsimp only [selectProvider]
    rw [if_neg hne]
    split <;> rfl

theorem selectProvider_result (keys seq : List String)
    (hne : seq.length ≠ 0) (hkeys : ∀ id ∈ seq, id ∈ keys) (i : ℕ) :
    (selectProvider ⟨keys, seq, i⟩).1 =
      Except.ok (seq.getD (i % seq.length) "") := by
  have hlt : i % seq.length < seq.length :=
    Nat.mod_lt _ (Nat.pos_of_ne_zero hne)
  have hmem : seq.getD (i % seq.length) "" ∈ seq := by
    rw [List.getD_eq_getElem seq "" hlt]
    exact List.getElem_mem hlt
  dsimp only [selectProvider]
  rw [if_neg hne, if_pos (hkeys _ hmem)]

/-- Number of `i < n` with `i % m = j`, in closed form. -/
theorem card_range_filter_mod (m j : ℕ) (hm : 0 < m) (hj : j < m) (n : ℕ) :
    ((Finset.range n).filter (fun i => i % m = j)).card
      = n / m + (if j < n % m then 1 else 0) := by
  induction n with
  | zero =>
    simp [Nat.zero_div, Nat.zero_mod]
  | succ n ih =>
    rw [Finset.range_succ, Finset.filter_insert]
    have hq := Nat.div_add_mod n m
    have hr : n % m < m := Nat.mod_lt _ hm
    by_cases hcase : n % m + 1 = m
    · have hdvd : n + 1 = m * (n / m + 1) := by
        have h1 : m * (n / m + 1) = m * (n / m) + m := by ring
        rw [h1]
        linarith [hq]
      have hdiv : (n + 1) / m = n / m + 1 := by
        rw [hdvd, Nat.mul_div_cancel_left _ hm]
      have hmod : (n + 1) % m = 0 := by
        rw [hdvd]
        exact Nat.mul_mod_right m _
      by_cases hnm : n % m = j
      · rw [if_pos hnm, Finset.card_insert_of_not_mem (by simp), ih, hdiv, hmod]
        split_ifs <;> omega
      · rw [if_neg hnm, ih, hdiv, hmod]
        split_ifs <;> omega
    · have hlt2 : n % m + 1 < m := by omega
      have hn1 : n + 1 = m * (n / m) + (n % m + 1) := by linarith [hq]
      have hdiv : (n + 1) / m = n / m := by
        rw [hn1, Nat.mul_add_div hm, Nat.div_eq_of_lt hlt2]
        omega
      have hmod : (n + 1) % m = n % m + 1 := by
        rw [hn1, Nat.mul_add_mod, Nat.mod_eq_of_lt hlt2]
      by_cases hnm : n % m = j
      · rw [if_pos hnm, Finset.card_insert_of_not_mem (by simp), ih, hdiv, hmod]
        split_ifs <;> omega
      · rw [if_neg hnm, ih, hdiv, hmod]
        split_ifs <;> omega

end SelectorLemmas

/-- C2: for a configured non-empty model sequence, the k-th
`roundRobinSelector.SelectProvider` call (k ≥ 1) selects the model at index
`(k−1) mod m`; consequently per-model selection counts after any number of
calls differ by at most 1 (for distinct configured models, each backed by a
provider, as `NewEvalProvider` constructs them). -/
theorem claim_C2_round_robin (keys seq : List String)
    (hne : seq ≠ []) (hkeys : ∀ id ∈ seq, id ∈ keys) (hnd : seq.Nodup) :
    (∀ k : ℕ, 1 ≤ k →
      (selectProvider (selectorIterate ⟨keys, seq, 0⟩ (k - 1))).1 =
        Except.ok (seq.getD ((k - 1) % seq.length) "")) ∧
    (∀ n : ℕ, ∀ a ∈ seq, ∀ b ∈ seq,
      selectionCount ⟨keys, seq, 0⟩ a n ≤ selectionCount ⟨keys, seq, 0⟩ b n + 1) := by
  have hlen : seq.length ≠ 0 := by simpa using hne
  have hpos : 0 < seq.length := Nat.pos_of_ne_zero hlen
  have hcount : ∀ (id : String) (j : ℕ) (hj : j < seq.length),
      seq.get ⟨j, hj⟩ = id → ∀ n,
      selectionCount ⟨keys, seq, 0⟩ id n =
        n / seq.length + (if j < n % seq.length then 1 else 0) := by
    intro id j hj hid n
    rw [← card_range_filter_mod seq.length j hpos hj n]
    unfold selectionCount
    congr 1
    apply Finset.filter_congr
    intro i _
    rw [selectorIterate_state keys seq hlen,
      selectProvider_result keys seq hlen hkeys]
    have hlt : i % seq.length < seq.length := Nat.mod_lt _ hpos
    simp only [Except.ok.injEq, eq_iff_iff]
    rw [List.getD_eq_getElem seq "" hlt, ← hid]
    constructor
    · intro h
      rw [List.get_eq_getElem] at h
      exact (@List.Nodup.getElem_inj_iff _ _ hnd _ hlt _ hj).mp h
    · intro h
      subst h
      rw [List.get_eq_getElem]
  refine ⟨?_, ?_⟩
  · intro k hk
    rw [selectorIterate_state keys seq hlen,
      selectProvider_result keys seq hlen hkeys]
  · intro n a ha b hb
    obtain ⟨⟨ja, hja⟩, hga⟩ := List.mem_iff_get.mp ha
    obtain ⟨⟨jb, hjb⟩, hgb⟩ := List.mem_iff_get.mp hb
    rw [hcount a ja hja hga n, hcount b jb hjb hgb n]
    split_ifs <;> omega

/-- Witness for C2 with a two-model sequence. -/
theorem claim_C2_witness :
    (["a", "b"] : List String) ≠ [] ∧
    (∀ id ∈ (["a", "b"] : List String), id ∈ (["a", "b"] : List String)) ∧
    (["a", "b"] : List String).Nodup ∧
    ((∀ k : ℕ, 1 ≤ k →
      (selectProvider (selectorIterate ⟨["a", "b"], ["a", "b"], 0⟩ (k - 1))).1 =
        Except.ok ((["a", "b"] : List String).getD ((k - 1) % 2) "")) ∧
    (∀ n : ℕ, ∀ x ∈ (["a", "b"] : List String), ∀ y ∈ (["a", "b"] : List String),
      selectionCount ⟨["a", "b"], ["a", "b"], 0⟩ x n ≤
        selectionCount ⟨["a", "b"], ["a", "b"], 0⟩ y n + 1)) :=
  ⟨by simp, by simp, by simp,
    claim_C2_round_robin ["a", "b"] ["a", "b"] (by simp) (by simp) (by simp)⟩

/-- C3: every `EvalProvider.Complete` invocation appends exactly one
`CallMetrics` record; on selection failure it has ModelID "unknown",
Success false and the error text; otherwise it carries the selected model id,
the measured latency, token counts from non-nil options, Success equal to
(call error == nil), and the call's error text on failure. -/
theorem claim_C3_eval_provider_records_one_call
    (sel call : Except String String) (opts : Option (ℤ × ℤ))
    (st lat : ℤ) (collected : List CallMetrics) :
    (evalComplete sel call opts st lat collected).2 =
      collected ++ [evalMetric sel call opts st lat] ∧
    (evalComplete sel call opts st lat collected).1 =
      (match sel with | .error e => .error e | .ok _ => call) ∧
    (∀ e, sel = .error e →
      evalMetric sel call opts st lat =
        { ModelID := "unknown", LatencyMs := 0, InputTokens := 0
          OutputTokens := 0, PromptTokens := 0, Success := false
          ErrorType := e, Timestamp := st }) ∧
    (∀ id, sel = .ok id →
      (evalMetric sel call opts st lat).ModelID = id ∧
      (evalMetric sel call opts st lat).LatencyMs = lat ∧
      (evalMetric sel call opts st lat).Success =
        (match call with | .ok _ => true | .error _ => false) ∧
      (evalMetric sel call opts st lat).InputTokens =
        (match opts with | some (it, _) => it | none => 0) ∧
      (evalMetric sel call opts st lat).OutputTokens =
        (match opts with | some (_, ot) => ot | none => 0) ∧
      (evalMetric sel call opts st lat).ErrorType =
        (match call with | .ok _ => "" | .error e => e)) := by
  cases sel <;> cases call <;> rcases opts with _ | ⟨it, ot⟩ <;>
    simp [evalComplete, evalMetric, recordCall]

/-- C4: `AnthropicProvider.Complete` retries on rate limits (429), timeouts
and 5xx server errors; it stops without retrying exactly on client errors
(4xx other than 429), whose message starts with "unrecoverable", and on a
cancelled context, where it returns the context's error.  Success returns the
content; any other failure is also retried. -/
theorem claim_C4_anthropic_retry_discipline
    (backoff : ℤ) (rest : List AnthropicAttempt) :
    (∀ ra emsg, 0 < ra →
      anthropicComplete backoff (.errStatus 429 (some ra) emsg :: rest) =
        anthropicComplete backoff rest) ∧
    (∀ emsg,
      anthropicComplete backoff (.errStatus 429 none emsg :: rest) =
        anthropicComplete (minDuration (backoff * 2) 30000) rest) ∧
    (anthropicComplete backoff (.errTimeout :: rest) =
      anthropicComplete (minDuration (backoff * 2) 30000) rest) ∧
    (∀ code ra emsg, 500 ≤ code → code < 600 →
      anthropicComplete backoff (.errStatus code ra emsg :: rest) =
        anthropicComplete (minDuration (backoff * 2) 30000) rest) ∧
    (∀ code ra emsg, 400 ≤ code → code < 500 → code ≠ 429 →
      anthropicComplete backoff (.errStatus code ra emsg :: rest) =
        .unrecoverable
          ("unrecoverable error (status " ++ toString code ++ "): " ++ emsg) ∧
      ∃ s, ("unrecoverable error (status " ++ toString code ++ "): " ++ emsg) =
        "unrecoverable" ++ s) ∧
    (∀ e, anthropicComplete backoff (.ctxDone e :: rest) = .ctxError e) ∧
    (∀ e, anthropicComplete backoff (.errCtx e :: rest) = .ctxError e) ∧
    (∀ c, anthropicComplete backoff (.ok c :: rest) = .success c) := by
  refine ⟨?_, ?_, ?_, ?_, ?_, ?_, ?_, ?_⟩
  · intro ra emsg hra
    simp [anthropicComplete, hra]
  · intro emsg
    simp [anthropicComplete]
  · simp [anthropicComplete]
  · intro code ra emsg h5 h6
    have hne : ¬ (code = 429) := by omega
    simp [anthropicComplete, hne, h5, h6]
  · intro code ra emsg h4 h5 hne
    constructor
    · have h56 : ¬ (500 ≤ code ∧ code < 600) := by omega
      simp [anthropicComplete, hne, h56, h4, h5]
    · refine ⟨" error (status " ++ toString code ++ "): " ++ emsg, ?_⟩
      have h : ("unrecoverable" : String) ++ " error (status " =
          "unrecoverable error (status " := rfl
      rw [← h, String.append_assoc, String.append_assoc, String.append_assoc,
        String.append_assoc " error (status " (toString code) "): ",
        String.append_assoc " error (status " (toString code ++ "): ") emsg,
        String.append_assoc (toString code) "): " emsg]
  · intro e
    simp [anthropicComplete]
  · intro e
    simp [anthropicComplete]
  · intro c
    simp [anthropicComplete]

/-- C5: a refinement ratio < 0 or ≥ 1 makes `run` return an error before
constructing a ranker, reading any input file, or making any LLM call
(specifically the ratio error whenever logging setup succeeded); a ratio in
[0, 1) passes the validation and `run` proceeds to the rest of the pipeline
unchanged. -/
theorem claim_C5_refinement_validation (env : RunEnv) (r : ℚ) :
    ((r < 0 ∨ 1 ≤ r) →
      (∃ e, (runModel env r).1 = Except.error e) ∧
      RunEffect.newRanker ∉ (runModel env r).2 ∧
      RunEffect.readInputFile ∉ (runModel env r).2 ∧
      RunEffect.llmCall ∉ (runModel env r).2 ∧
      ((env.logFile = none ∨ env.openLog = Except.ok ()) →
        (runModel env r).1 =
          Except.error "refinement ratio must be >= 0 and < 1")) ∧
    (0 ≤ r → r < 1 →
      runModel env r =
        (match env.logFile, env.openLog with
        | some _, Except.error e =>
            (Except.error ("invalid log file path: " ++ e), [RunEffect.openLogFile])
        | some _, Except.ok _ => runAfterRatioCheck env [RunEffect.openLogFile]
        | none, _ => runAfterRatioCheck env [])) := by
  constructor
  · intro hbad
    rcases henv : env.logFile with _ | lf
    · refine ⟨⟨"refinement ratio must be >= 0 and < 1", ?_⟩, ?_, ?_, ?_, ?_⟩ <;>
        simp [runModel, henv, hbad]
    · rcases hopen : env.openLog with e | u
      · refine ⟨⟨"invalid log file path: " ++ e, ?_⟩, ?_, ?_, ?_, ?_⟩ <;>
          simp [runModel, henv, hopen, hbad]
      · refine ⟨⟨"refinement ratio must be >= 0 and < 1", ?_⟩, ?_, ?_, ?_, ?_⟩ <;>
          simp [runModel, henv, hopen, hbad]
  · intro h0 h1
    have hok : ¬ (r < 0 ∨ 1 ≤ r) := by
      push_neg
      exact ⟨h0, h1⟩
    rcases henv : env.logFile with _ | lf
    · simp [runModel, henv, hok]
    · rcases hopen : env.openLog with e | u
      · simp [runModel, henv, hopen]
      · simp [runModel, henv, hopen, hok]

/-- C8: the two `NewProvider` versions agree on every configuration whose
type is not "anthropic" (same error or same constructed provider
configuration); for "anthropic" with a non-empty model, the old version
always fails with "not yet implemented" while the new one requires an API
key and then constructs the Anthropic provider. -/
theorem claim_C8_factory_refinement (cfg : ProviderConfig) :
    (cfg.Typ ≠ "anthropic" → newProviderNew cfg = newProviderOld cfg) ∧
    (cfg.Typ = "anthropic" →
      newProviderOld cfg =
        (if cfg.Model = "" then .error "model is required"
         else .error "anthropic provider not yet implemented") ∧
      newProviderNew cfg =
        (if cfg.Model = "" then .error "model is required"
         else if cfg.APIKey = "" then
           .error "anthropic provider requires an API key"
         else
           .ok (.anthropicProvider (.header "x-api-key" cfg.APIKey) cfg.Model
             cfg.BaseURL
             (if cfg.Encoding = "" then DefaultEncoding else cfg.Encoding)))) := by
  constructor
  · intro hne
    unfold newProviderNew newProviderOld
    split_ifs with h1 h2 h3 h4 <;> rfl
  · intro ha
    have h1 : ¬ (cfg.Typ = "") := by rw [ha]; simp
    have h3 : ¬ (cfg.Typ = "openai" ∨ cfg.Typ = "openrouter") := by
      rw [ha]; simp
    constructor
    · unfold newProviderOld
      rw [if_neg h1]
      by_cases h2 : cfg.Model = "" <;> simp [h2, h3, ha]
    · unfold newProviderNew newAnthropicProvider
      rw [if_neg h1]
      by_cases h2 : cfg.Model = "" <;> simp [h2, h3, ha]

section CollectorLemmas

theorem recordFold_slots (c : SliceCollector) (ms : List CallMetrics)
    (h : MetricsHeap) :
    (ms.foldl (fun h m => collectorRecordCall h c m) h).slots c.ref =
      h.slots c.ref ++ ms ∧
    (ms.foldl (fun h m => collectorRecordCall h c m) h).next = h.next := by
  induction ms generalizing h with
  | nil => simp
  | cons m t ih =>
    simp only [List.foldl_cons]
    rcases ih (collectorRecordCall h c m) with ⟨h1, h2⟩
    refine ⟨?_, by simpa [collectorRecordCall, heapWrite] using h2⟩
    rw [h1]
    simp [collectorRecordCall, heapWrite]

end CollectorLemmas

/-- C10: `MetricsCollector` preserves insertion order and isolates its
state: after any sequence of `RecordCall`s the stored entries are exactly the
recorded ones in order; `GetMetrics` / `GetMetricsByModel` return fresh
copies, so writing through the returned slice never changes the stored
metrics; `GetMetricsByModel` returns exactly the stored entries with the
given `ModelID`, in stored order; and `Reset` leaves the collector empty. -/
theorem claim_C10_collector_order_and_isolation
    (hInit : MetricsHeap) (ms : List CallMetrics) (id : String) :
    (((ms.foldl (fun h m => collectorRecordCall h (newMetricsCollector hInit).2 m)
          (newMetricsCollector hInit).1).slots (newMetricsCollector hInit).2.ref)
        = ms) ∧
    (∀ h1 : MetricsHeap, h1 =
        ms.foldl (fun h m => collectorRecordCall h (newMetricsCollector hInit).2 m)
          (newMetricsCollector hInit).1 →
      (collectorGetMetrics h1 (newMetricsCollector hInit).2).1.slots
          (collectorGetMetrics h1 (newMetricsCollector hInit).2).2 = ms ∧
      (collectorGetMetrics h1 (newMetricsCollector hInit).2).2 ≠
          (newMetricsCollector hInit).2.ref ∧
      (∀ v, (heapWrite (collectorGetMetrics h1 (newMetricsCollector hInit).2).1
          (collectorGetMetrics h1 (newMetricsCollector hInit).2).2 v).slots
          (newMetricsCollector hInit).2.ref = ms) ∧
      (collectorGetMetricsByModel h1 (newMetricsCollector hInit).2 id).1.slots
          (collectorGetMetricsByModel h1 (newMetricsCollector hInit).2 id).2 =
        ms.filter (fun m => m.ModelID = id) ∧
      (collectorGetMetricsByModel h1 (newMetricsCollector hInit).2 id).2 ≠
          (newMetricsCollector hInit).2.ref ∧
      (∀ v, (heapWrite
          (collectorGetMetricsByModel h1 (newMetricsCollector hInit).2 id).1
          (collectorGetMetricsByModel h1 (newMetricsCollector hInit).2 id).2 v).slots
          (newMetricsCollector hInit).2.ref = ms) ∧
      (collectorReset h1 (newMetricsCollector hInit).2).slots
          (newMetricsCollector hInit).2.ref = []) := by
  have hc : (newMetricsCollector hInit).2.ref = hInit.next := rfl
  have hinit0 : (newMetricsCollector hInit).1.slots hInit.next = [] := by
    simp [newMetricsCollector, heapAlloc]
  have hnext0 : (newMetricsCollector hInit).1.next = hInit.next + 1 := rfl
  obtain ⟨hslots, hnext⟩ := recordFold_slots (newMetricsCollector hInit).2 ms
    (newMetricsCollector hInit).1
  rw [hc] at hslots
  rw [hinit0] at hslots
  simp only [List.nil_append] at hslots
  refine ⟨by rw [hc]; exact hslots, ?_⟩
  intro h1 hh1
  have h1slots : h1.slots hInit.next = ms := by rw [hh1]; exact hslots
  have h1next : h1.next = hInit.next + 1 := by rw [hh1]; rw [hnext, hnext0]
  have hfresh : h1.next ≠ hInit.next := by omega
  refine ⟨?_, ?_, ?_, ?_, ?_, ?_, ?_⟩
  · simp [collectorGetMetrics, heapAlloc, hc, h1slots]
  · simp [collectorGetMetrics, heapAlloc, hc, hfresh, h1next]
  · intro v
    simp [collectorGetMetrics, heapAlloc, heapWrite, hc, hfresh, Ne.symm hfresh, h1slots]
  · simp [collectorGetMetricsByModel, heapAlloc, hc, h1slots]
  · simp [collectorGetMetricsByModel, heapAlloc, hc, h1next]
  · intro v
    simp [collectorGetMetricsByModel, heapAlloc, heapWrite, hc, hfresh, Ne.symm hfresh, h1slots]
  · simp [collectorReset, heapWrite, hc]

section EngineLemmas

theorem foldl_bump_eq (ps : List (ℕ × String)) (led : Ledger) :
    ps.foldl (fun led p => bump led p.2 (p.1 + 1)) led =
      fun k => ((led k).1 + ((ps.filter (fun p => p.2 = k)).map (fun p => p.1 + 1)).sum,
                (led k).2 + (ps.filter (fun p => p.2 = k)).length) := by
  induction ps generalizing led with
  | nil => funext k; simp
  | cons p t ih =>
    simp only [List.foldl_cons, ih]
    funext k
    by_cases hk : p.2 = k
    · subst hk
      simp [bump, List.filter_cons, Prod.mk.injEq]
      omega
    · have hk' : ¬ (k = p.2) := fun h => hk h.symm
      simp [bump, List.filter_cons, hk, hk']

theorem applyRanking_comm (led : Ledger) (r1 r2 : List String) :
    applyRanking (applyRanking led r1) r2 = applyRanking (applyRanking led r2) r1 := by
  unfold applyRanking
  rw [foldl_bump_eq, foldl_bump_eq, foldl_bump_eq, foldl_bump_eq]
  funext k
  simp only [Prod.mk.injEq]
  constructor <;> omega

end EngineLemmas

/-- C7: with `max_trials = 1`, convergence disabled, `refinement_ratio = 0`,
a fixed seed and the deterministic dry-run stub provider, the engine is
deterministic: any two runs over the same input — i.e. any two completion
orders of the same planned batch rankings, the only scheduling freedom —
produce identical final output. -/
theorem claim_C7_engine_determinism (seed B : ℕ) (docs : List Document)
    (order1 order2 : List (List String))
    (h1 : order1.Perm (planRankings seed docs B))
    (h2 : order2.Perm (planRankings seed docs B)) :
    engineRun docs order1 = engineRun docs order2 := by
  have hperm : order1.Perm order2 := h1.trans h2.symm
  have hled : applyAll zeroLedger order1 = applyAll zeroLedger order2 := by
    haveI : RightCommutative applyRanking := ⟨applyRanking_comm⟩
    exact List.Perm.foldl_eq hperm zeroLedger
  simp only [engineRun, applyAll] at hled ⊢
  simp only [hled]

/-- Three concrete documents for the C7 witness. -/
def docsW : List Document := [⟨"a", "apple"⟩, ⟨"b", "banana"⟩, ⟨"c", "cherry"⟩]

/-- Witness for C7: the planned rankings applied in forward and in reversed
completion order give the same output. -/
theorem claim_C7_witness :
    (planRankings 1 docsW 2).Perm (planRankings 1 docsW 2) ∧
    ((planRankings 1 docsW 2).reverse).Perm (planRankings 1 docsW 2) ∧
    engineRun docsW (planRankings 1 docsW 2) =
      engineRun docsW ((planRankings 1 docsW 2).reverse) :=
  ⟨List.Perm.refl _, List.reverse_perm _,
    claim_C7_engine_determinism 1 2 docsW _ _ (List.Perm.refl _) (List.reverse_perm _)⟩
